import Mathlib

/-!
Shallow embedding of the maubot webhook plugin (src/webhook/bot.py,
src/webhook/db.py) together with proofs of the specification claims.

Modelling conventions:
  * Machine-level details (asyncpg, aiohttp) are abstracted: the database is
    a list of rows plus a next-identity counter, and an HTTP endpoint is a
    function from attempt index to an attempt outcome.
  * Python `str.format(**kwargs)` is modelled for the template language the
    spec defines (named `{field}` placeholders over a closed vocabulary plus
    the `\x7b\x7b` / `\x7d\x7d` escapes).  An unknown named field is a
    KeyError, stray or unclosed braces a ValueError — both caught by the
    per-entry handler of `on_message` — while an empty or positional field
    name (`\x7b\x7d`, `\x7b0\x7d`) is an IndexError, which that handler does
    NOT catch, so it aborts the whole render.  Placeholders using
    conversion, format-spec, attribute or index syntax (`!`, `:`, `.`, `[`
    after a named argument) are outside the modelled language and marked
    `unmodeled`; theorems about rendering are scoped to exclude them.
  * Exceptions are modelled with `Except` / `Option`; the per-registration
    `except Exception` boundary of `_forward_to_webhook` turns an escaping
    exception into `none`.
-/

namespace Webhook

/-- JSON-encodable values that appear in `raw_data`, rendered payloads and
`custom_fields`: strings, integers (the event timestamp) and `None`. -/
inductive JValue where
  | str (s : String)
  | num (n : Int)
  | null
deriving Repr, DecidableEq

/-- How Python's `str.format` renders a substituted value inside a string:
`str(x)` — in particular `None` renders as the literal string "None". -/
def renderValue : JValue → String
  | .str s => s
  | .num n => toString n
  | .null => "None"

/-- Errors and escapes of `str.format` on template strings: `keyError` for a
placeholder naming an unknown field, `valueError` for malformed braces —
the two classes `except (KeyError, ValueError)` catches — and `indexError`
for an empty or positional field name (`\x7b\x7d`, `\x7b0\x7d`), which no
handler on the render path catches.  `unmodeled` marks a placeholder using
conversion / format-spec / attribute / index syntax on a named argument:
such templates are outside the modelled language and are excluded from the
rendering theorems by hypothesis. -/
inductive FmtError where
  | keyError
  | valueError
  | indexError
  | unmodeled
deriving Repr, DecidableEq

/-- Character-level interpreter for Python `str.format(**fields)`.  The
`Option` argument is `none` outside a placeholder and `some acc` while the
characters of a field are being read (`acc` holds them reversed).  At the
closing brace, the argument name is the field text up to the first `!`,
`:`, `.` or `[`: an empty or all-decimal argument name is a positional
reference and raises IndexError (the call site passes keyword arguments
only); a plain name is looked up, raising KeyError when absent; a field
carrying conversion / format-spec / attribute / index syntax is outside the
modelled language (`unmodeled`).  The first argument is recursion fuel;
every step consumes at least one input character, so fuel `≥` input length
never runs out. -/
def formatLoop (fields : List (String × JValue)) :
    Nat → List Char → Option (List Char) → Except FmtError (List Char)
  | 0, _, _ => .error .valueError
  | _ + 1, [], none => .ok []
  | _ + 1, [], some _ => .error .valueError
  | fuel + 1, c :: rest, some acc =>
    if c = '}' then
      let fieldText := acc.reverse
      let argName := fieldText.takeWhile
        (fun ch => ch ≠ '!' && ch ≠ ':' && ch ≠ '.' && ch ≠ '[')
      if argName.all Char.isDigit then .error .indexError
      else if argName.length ≠ fieldText.length then .error .unmodeled
      else
        match List.lookup (String.mk fieldText) fields with
        | some v =>
          (formatLoop fields fuel rest none).map (fun t => (renderValue v).data ++ t)
        | none => .error .keyError
    else if c = '{' then .error .valueError
    else formatLoop fields fuel rest (some (c :: acc))
  | fuel + 1, c :: rest, none =>
    if c = '{' then
      match rest with
      | '{' :: rest2 => (formatLoop fields fuel rest2 none).map (fun t => '{' :: t)
      | _ => formatLoop fields fuel rest (some [])
    else if c = '}' then
      match rest with
      | '}' :: rest2 => (formatLoop fields fuel rest2 none).map (fun t => '}' :: t)
      | _ => .error .valueError
    else (formatLoop fields fuel rest none).map (fun t => c :: t)

/-- `tmpl.format(**fields)` for a template string over named placeholders. -/
def pyFormat (tmpl : String) (fields : List (String × JValue)) :
    Except FmtError String :=
  (formatLoop fields (tmpl.data.length + 1) tmpl.data none).map String.mk

/-- Python `str.strip()`: drop leading and trailing whitespace (modelled
over the ASCII whitespace characters). -/
def pyStrip (s : String) : String :=
  String.mk (((s.data.dropWhile Char.isWhitespace).reverse.dropWhile
    Char.isWhitespace).reverse)

/-- Python `str.startswith(pre)`. -/
def pyStartsWith (s pre : String) : Bool :=
  pre.data.isPrefixOf s.data

instance {e a : Type} [DecidableEq e] [DecidableEq a] :
    DecidableEq (Except e a) := fun a b =>
  match a, b with
  | .ok x, .ok y =>
    if h : x = y then .isTrue (by rw [h])
    else .isFalse (fun he => h (Except.ok.inj he))
  | .error x, .error y =>
    if h : x = y then .isTrue (by rw [h])
    else .isFalse (fun he => h (Except.error.inj he))
  | .ok x, .error y => .isFalse (fun he => Except.noConfusion he)
  | .error x, .ok y => .isFalse (fun he => Except.noConfusion he)

/-- One entry of the `message_data` construction loop of `on_message`
(bot.py lines 635-644): format the entry's template; on success keep the
value when `include_empty_fields` is set or the value is non-empty and not
"None"; on a KeyError or ValueError — the only classes the per-entry
`except (KeyError, ValueError)` catches — keep a null exactly when
`include_empty_fields` is set; any other escaping error (IndexError from an
empty/positional placeholder, or unmodeled syntax) propagates out of the
entry. -/
def renderEntry (includeEmpty : Bool) (fields : List (String × JValue))
    (t : String) : Except FmtError (Option JValue) :=
  match pyFormat t fields with
  | .ok v =>
    .ok (if includeEmpty || (v ≠ "" && v ≠ "None") then some (.str v) else none)
  | .error .keyError => .ok (if includeEmpty then some .null else none)
  | .error .valueError => .ok (if includeEmpty then some .null else none)
  | .error e => .error e

/-- The `message_data` loop of `on_message` (bot.py lines 634-644).  A
KeyError/ValueError is confined to its own entry by the per-entry
`try/except (KeyError, ValueError)`, but an error outside those two classes
escapes the loop: the remaining entries are not rendered and the error
propagates to the caller. -/
def renderMessageData (includeEmpty : Bool) (fields : List (String × JValue)) :
    List (String × String) → Except FmtError (List (String × JValue))
  | [] => .ok []
  | (k, t) :: rest =>
    match renderEntry includeEmpty fields t with
    | .ok (some v) =>
      (renderMessageData includeEmpty fields rest).map (fun d => (k, v) :: d)
    | .ok none => renderMessageData includeEmpty fields rest
    | .error e => .error e

/-- Python `dict` assignment `d[k] = v`: overwrite in place if the key is
present, else append. -/
def dictSet (d : List (String × JValue)) (k : String) (v : JValue) :
    List (String × JValue) :=
  if d.any (fun kv => kv.1 == k) then
    d.map (fun kv => if kv.1 == k then (k, v) else kv)
  else d ++ [(k, v)]

/-- Python `d.update(u)` (bot.py line 647): assign every binding of `u` into
`d` in order, unconditionally overwriting same-named keys. -/
def dictUpdate (d u : List (String × JValue)) : List (String × JValue) :=
  u.foldl (fun acc kv => dictSet acc kv.1 kv.2) d

/-- A row of the `webhook_registration` table, mirroring the
`WebhookRegistration` dataclass of db.py.  `message_data_template` is the
stored JSON round-trip of the optional per-registration template. -/
structure WebhookRegistration where
  id : Nat
  room_id : String
  user_id : String
  webhook_url : String
  enabled : Bool
  created_at : Nat
  message_data_template : Option (List (String × String))
deriving Repr, DecidableEq

/-- The persistent state behind `WebhookDBManager`: the table rows plus the
identity counter behind `GENERATED ALWAYS AS IDENTITY` / sqlite rowid. -/
structure Store where
  rows : List WebhookRegistration
  nextId : Nat
deriving Repr, DecidableEq

/-- `json.dumps(t) if t else None` (db.py lines 166, 285) followed by the
`from_row` JSON parse: an absent or empty template dict is stored as NULL. -/
def normTemplate : Option (List (String × String)) → Option (List (String × String))
  | some m => if m.isEmpty then none else some m
  | none => none

/-- `get_webhooks_by_room` (db.py lines 125-133): rows of the room with
`enabled = true`. -/
def get_webhooks_by_room (s : Store) (room : String) : List WebhookRegistration :=
  s.rows.filter (fun r => r.room_id == room && r.enabled)

/-- Insertion step for `ORDER BY id ASC`. -/
def insertById (r : WebhookRegistration) :
    List WebhookRegistration → List WebhookRegistration
  | [] => [r]
  | x :: xs => if r.id ≤ x.id then r :: x :: xs else x :: insertById r xs

/-- `ORDER BY id ASC` as an insertion sort. -/
def sortById (l : List WebhookRegistration) : List WebhookRegistration :=
  l.foldr insertById []

/-- `list_webhooks_for_room` (db.py lines 260-269): all rows of the room,
enabled and disabled, ordered by ascending id. -/
def list_webhooks_for_room (s : Store) (room : String) : List WebhookRegistration :=
  sortById (s.rows.filter (fun r => r.room_id == room))

/-- `unregister_webhook_by_id` (db.py lines 250-258): `UPDATE ... SET
enabled = false WHERE id = $1 AND user_id = $2`; returns whether the update
tag differs from "UPDATE 0", i.e. whether any row matched. -/
def unregister_webhook_by_id (s : Store) (wid : Nat) (user : String) :
    Bool × Store :=
  let rows2 := s.rows.map (fun r =>
    if r.id == wid && r.user_id == user then { r with enabled := false } else r)
  (s.rows.countP (fun r => r.id == wid && r.user_id == user) != 0,
   { s with rows := rows2 })

/-- `delete_webhook_by_id` (db.py lines 319-330): `DELETE ... WHERE id = $1
AND user_id = $2`; returns whether any row was deleted. -/
def delete_webhook_by_id (s : Store) (wid : Nat) (user : String) :
    Bool × Store :=
  let rows2 := s.rows.filter (fun r => !(r.id == wid && r.user_id == user))
  (s.rows.countP (fun r => r.id == wid && r.user_id == user) != 0,
   { s with rows := rows2 })

/-- `update_message_template` (db.py lines 278-293): `UPDATE ... SET
message_data_template = $3 WHERE id = $1 AND user_id = $2`. -/
def update_message_template (s : Store) (wid : Nat) (user : String)
    (t : Option (List (String × String))) : Bool × Store :=
  let tj := normTemplate t
  let rows2 := s.rows.map (fun r =>
    if r.id == wid && r.user_id == user then
      { r with message_data_template := tj } else r)
  (s.rows.countP (fun r => r.id == wid && r.user_id == user) != 0,
   { s with rows := rows2 })

/-- The URL branch of `register_webhook` (db.py lines 179-229): if a row with
the same (room, user, url) triple exists, re-enable it and overwrite its
template (the `RETURNING` row is the first updated one); otherwise insert a
fresh enabled row with `created_at = now`.  The Postgres `RETURNING` path is
modelled; the sqlite branch differs only in how the fresh id is read back. -/
def registerByUrl (s : Store) (room user url : String)
    (tj : Option (List (String × String))) (now : Nat) :
    Option WebhookRegistration × Store :=
  let isTarget := fun (r : WebhookRegistration) =>
    r.room_id == room && r.user_id == user && r.webhook_url == url
  match s.rows.find? isTarget with
  | some _ =>
    let rows2 := s.rows.map (fun r =>
      if isTarget r then
        { r with enabled := true, message_data_template := tj } else r)
    (rows2.find? isTarget, { s with rows := rows2 })
  | none =>
    let newRow : WebhookRegistration :=
      ⟨s.nextId, room, user, url, true, now, tj⟩
    (some newRow, ⟨s.rows ++ [newRow], s.nextId + 1⟩)

/-- `register_webhook` (db.py lines 156-229).  Python's `if webhook_id:` is
falsy both for `None` and for `0`, so only a non-zero id takes the
enable-by-id branch (`UPDATE ... WHERE id = $1 AND user_id = $2`, returning
`from_row(None) = None` when nothing matched). -/
def register_webhook (s : Store) (room user url : String)
    (tmpl : Option (List (String × String))) (wid : Option Nat) (now : Nat) :
    Option WebhookRegistration × Store :=
  let tj := normTemplate tmpl
  match wid with
  | some i =>
    if i = 0 then registerByUrl s room user url tj now
    else
      let isTarget := fun (r : WebhookRegistration) =>
        r.id == i && r.user_id == user
      let rows2 := s.rows.map (fun r =>
        if isTarget r then
          { r with enabled := true, message_data_template := tj } else r)
      (rows2.find? isTarget, { s with rows := rows2 })
  | none => registerByUrl s room user url tj now

/-- The fields of an inbound room-message event that `on_message` reads
(bot.py lines 622-631).  `body` is the plain-text body; `formatted_body` and
`format` are optional. -/
structure MessageEvent where
  event_id : String
  room_id : String
  sender : String
  timestamp : Int
  msgtype : String
  body : String
  formatted_body : Option String
  format : Option String
deriving Repr, DecidableEq

/-- The `raw_data` dict of `on_message` (bot.py lines 622-631): the closed
field vocabulary offered to templates.  A missing `formatted_body` or
`format` is the Python `None`. -/
def raw_data (evt : MessageEvent) : List (String × JValue) :=
  [("event_id", .str evt.event_id),
   ("room_id", .str evt.room_id),
   ("sender", .str evt.sender),
   ("timestamp", .num evt.timestamp),
   ("message_type", .str evt.msgtype),
   ("body", .str evt.body),
   ("formatted_body", match evt.formatted_body with
     | some fb => .str fb
     | none => .null),
   ("format", match evt.format with
     | some f => .str f
     | none => .null)]

/-- The configuration surface read by the delivery path (bot.py Config,
lines 59-104). -/
structure Config where
  max_webhook_retries : Nat
  message_data_template : List (String × String)
  custom_fields : List (String × JValue)
  response_template : String
  include_empty_fields : Bool
deriving Repr, DecidableEq

/-- The payload built by `on_message` (bot.py lines 634-647): render the
global config template over `raw_data`, then merge `custom_fields` over the
result.  An error escaping the render loop skips the merge and propagates
(to be caught only by the outer `except Exception` of `on_message`). -/
def on_message_payload (cfg : Config) (evt : MessageEvent) :
    Except FmtError (List (String × JValue)) :=
  (renderMessageData cfg.include_empty_fields (raw_data evt)
      cfg.message_data_template).map
    (fun d => dictUpdate d cfg.custom_fields)

/-- The dispatch decision of `on_message` (bot.py lines 602-659): drop the
bot's own echoes and `!webhook` command text, fetch the room's active
registrations, and pair every one of them with the single payload rendered
from the global config template.  An error escaping payload construction is
caught by the handler's outer `except Exception` (bot.py line 658): the
event is logged and dropped, nothing is dispatched. -/
def on_message (cfg : Config) (s : Store) (evt : MessageEvent)
    (botId : String) : List (WebhookRegistration × List (String × JValue)) :=
  if evt.sender == botId then []
  else if evt.msgtype == "m.text" && pyStartsWith (pyStrip evt.body) "!webhook" then []
  else
    match on_message_payload cfg evt with
    | .ok payload => (get_webhooks_by_room s evt.room_id).map (fun w => (w, payload))
    | .error _ => []

/-- What one POST attempt against the destination can come back with:
a response with some status and body text, a timeout
(`asyncio.TimeoutError`), a transport error (`aiohttp.ClientError`), or any
other exception escaping the request call. -/
inductive AttemptOutcome where
  | response (status : Nat) (body : String)
  | timeout
  | clientError
  | raised
deriving Repr, DecidableEq

/-- Observable trace of one delivery: number of POST attempts performed,
the backoff sleeps in order, the reply relayed into the room (if any), and
whether an HTTP 200 was reached. -/
structure DeliveryResult where
  attempts : Nat
  sleeps : List Nat
  reply : Option String
  delivered : Bool
deriving Repr, DecidableEq

/-- What the body of the retry loop does with one attempt's outcome. -/
inductive LoopStep where
  | succeed (reply : Option String)
  | retry
  | abort
deriving Repr, DecidableEq

/-- One iteration of the retry loop of `_forward_to_webhook` (bot.py lines
677-714).  On HTTP 200 the body text, when non-empty, is stripped and
substituted into `response_template`; a `KeyError` from that substitution is
swallowed by the inner `except (json.JSONDecodeError, KeyError)`, while a
`ValueError` escapes the loop (only `TimeoutError` and `ClientError` are
caught there) — as does any other exception from the request itself.  Any
non-200 status, timeout or transport error leads to a retry. -/
def handleResponse (o : AttemptOutcome) (responseTemplate : String) : LoopStep :=
  match o with
  | .response status body =>
    if status = 200 then
      if body ≠ "" then
        match pyFormat responseTemplate [("response", .str (pyStrip body))] with
        | .ok s => .succeed (some s)
        | .error .keyError => .succeed none
        | .error _ => .abort
      else .succeed none
    else .retry
  | .timeout => .retry
  | .clientError => .retry
  | .raised => .abort

/-- The retry loop `for attempt in range(max_webhook_retries + 1)` of
`_forward_to_webhook` (bot.py lines 677-721), started at `attempt` with
`remaining` further attempts allowed.  After every failed attempt except the
last, the loop sleeps `2 ^ attempt`.  `Except.error` is an exception
escaping the loop. -/
def attemptLoop (responses : Nat → AttemptOutcome) (responseTemplate : String)
    (attempt : Nat) : Nat → Except Unit DeliveryResult
  | 0 =>
    match handleResponse (responses attempt) responseTemplate with
    | .succeed rep => .ok ⟨attempt + 1, [], rep, true⟩
    | .retry => .ok ⟨attempt + 1, [], none, false⟩
    | .abort => .error ()
  | remaining + 1 =>
    match handleResponse (responses attempt) responseTemplate with
    | .succeed rep => .ok ⟨attempt + 1, [], rep, true⟩
    | .retry =>
      match attemptLoop responses responseTemplate (attempt + 1) remaining with
      | .ok rest => .ok ⟨rest.attempts, 2 ^ attempt :: rest.sleeps, rest.reply, rest.delivered⟩
      | .error e => .error e
    | .abort => .error ()

/-- `_forward_to_webhook` (bot.py lines 661-724): run the retry loop under
the outer `try/except Exception`, which catches anything escaping it and
only logs — the coroutine itself never raises.  `none` is the caught-and-
logged case. -/
def forward_to_webhook (responses : Nat → AttemptOutcome)
    (maxRetries : Nat) (responseTemplate : String) : Option DeliveryResult :=
  (attemptLoop responses responseTemplate 0 maxRetries).toOption

/-- The fan-out of `on_message` (bot.py lines 650-656): one
`_forward_to_webhook` task per registration, gathered with
`return_exceptions=True`.  `responses j` is the endpoint behaviour of the
`j`-th registration. -/
def on_message_gather (regs : List WebhookRegistration)
    (responses : Nat → Nat → AttemptOutcome) (maxRetries : Nat)
    (responseTemplate : String) (startIdx : Nat) : List (Option DeliveryResult) :=
  match regs with
  | [] => []
  | _ :: rest =>
    forward_to_webhook (responses startIdx) maxRetries responseTemplate ::
      on_message_gather rest responses maxRetries responseTemplate (startIdx + 1)

/-- An update whose WHERE clause matches no row leaves the row list
unchanged. -/
theorem map_ite_id {α : Type} (p : α → Bool) (g : α → α) (l : List α)
    (h : ∀ x ∈ l, p x = false) :
    l.map (fun x => if p x then g x else x) = l := by
  induction l with
  | nil => rfl
  | cons x xs ih =>
    have hx := h x (List.mem_cons_self x xs)
    simp [hx, ih (fun y hy => h y (List.mem_cons_of_mem x hy))]

/-- Rows matching the acting user and id predicate. -/
def ownedBy (wid : Nat) (user : String) (r : WebhookRegistration) : Bool :=
  r.id == wid && r.user_id == user

theorem ownedBy_eq_false {wid user r} (h : ¬(r.id = wid ∧ r.user_id = user)) :
    ownedBy wid user r = false := by
  simp only [ownedBy, Bool.and_eq_false_iff, beq_eq_false_iff_ne, ne_eq]
  by_cases h1 : r.id = wid
  · exact Or.inr (fun h2 => h ⟨h1, h2⟩)
  · exact Or.inl h1

/-- C2: `unregister_webhook_by_id`, `delete_webhook_by_id` and
`update_message_template` invoked with an id/subscriber pair that owns no
row (the id is absent or the row belongs to someone else) return `false`
and leave the store completely unchanged — indistinguishable from a
genuinely absent row. -/
theorem ownership_mismatch_noop (s : Store) (wid : Nat) (user : String)
    (t : Option (List (String × String)))
    (h : ∀ r ∈ s.rows, ¬(r.id = wid ∧ r.user_id = user)) :
    unregister_webhook_by_id s wid user = (false, s)
    ∧ delete_webhook_by_id s wid user = (false, s)
    ∧ update_message_template s wid user t = (false, s) := by
  have hfalse : ∀ r ∈ s.rows, (r.id == wid && r.user_id == user) = false :=
    fun r hr => ownedBy_eq_false (h r hr)
  have hcount : s.rows.countP (fun r => r.id == wid && r.user_id == user) = 0 := by
    rw [List.countP_eq_zero]
    intro r hr
    simp [hfalse r hr]
  have hmapDis :
      s.rows.map (fun r =>
        if r.id == wid && r.user_id == user then { r with enabled := false } else r)
        = s.rows :=
    map_ite_id _ _ _ hfalse
  have hmapTpl :
      s.rows.map (fun r =>
        if r.id == wid && r.user_id == user then
          { r with message_data_template := normTemplate t } else r)
        = s.rows :=
    map_ite_id _ _ _ hfalse
  have hfilter :
      s.rows.filter (fun r => !(r.id == wid && r.user_id == user)) = s.rows := by
    rw [List.filter_eq_self]
    intro r hr
    simp [hfalse r hr]
  refine ⟨?_, ?_, ?_⟩
  · simp only [unregister_webhook_by_id]
    rw [hcount, hmapDis]
    rfl
  · simp only [delete_webhook_by_id]
    rw [hcount, hfilter]
    rfl
  · simp only [update_message_template]
    rw [hcount, hmapTpl]
    rfl

/-- Witness for `ownership_mismatch_noop`: a store with one row owned by
"@alice:x" and a call acting as "@bob:x" on that row's id. -/
theorem ownership_mismatch_noop_witness :
    (∀ r ∈ (Store.mk [⟨1, "!r:x", "@alice:x", "http://a", true, 0, none⟩] 2).rows,
      ¬(r.id = 1 ∧ r.user_id = "@bob:x"))
    ∧ unregister_webhook_by_id
        (Store.mk [⟨1, "!r:x", "@alice:x", "http://a", true, 0, none⟩] 2) 1 "@bob:x"
        = (false, Store.mk [⟨1, "!r:x", "@alice:x", "http://a", true, 0, none⟩] 2) := by
  refine ⟨by decide, ?_⟩
  exact (ownership_mismatch_noop
    (Store.mk [⟨1, "!r:x", "@alice:x", "http://a", true, 0, none⟩] 2)
    1 "@bob:x" none (by decide)).1

/-- C10: `register_webhook` called with a (non-zero) `webhook_id` that no
row owned by the acting user carries performs the id-branch `UPDATE`, which
matches nothing, so `fetchrow` yields no row, `from_row` turns it into
`None`, and the store is untouched — the declared `-> WebhookRegistration`
return type is not met on this path. -/
theorem register_missing_id_none (s : Store) (room user url : String)
    (tmpl : Option (List (String × String))) (i now : Nat)
    (hi : i ≠ 0) (h : ∀ r ∈ s.rows, ¬(r.id = i ∧ r.user_id = user)) :
    register_webhook s room user url tmpl (some i) now = (none, s) := by
  have hfalse : ∀ r ∈ s.rows, (r.id == i && r.user_id == user) = false :=
    fun r hr => ownedBy_eq_false (h r hr)
  have hmap :
      s.rows.map (fun r =>
        if r.id == i && r.user_id == user then
          { r with enabled := true, message_data_template := normTemplate tmpl }
        else r) = s.rows :=
    map_ite_id _ _ _ hfalse
  have hfind :
      s.rows.find? (fun r => r.id == i && r.user_id == user) = none := by
    rw [List.find?_eq_none]
    intro r hr
    simp [hfalse r hr]
  simp only [register_webhook, if_neg hi]
  rw [hmap, hfind]

/-- Witness for `register_missing_id_none`: re-registering id 7 as a user
who owns no row with that id. -/
theorem register_missing_id_none_witness :
    (7 ≠ 0
      ∧ ∀ r ∈ (Store.mk [⟨1, "!r:x", "@alice:x", "http://a", true, 0, none⟩] 2).rows,
        ¬(r.id = 7 ∧ r.user_id = "@alice:x"))
    ∧ register_webhook
        (Store.mk [⟨1, "!r:x", "@alice:x", "http://a", true, 0, none⟩] 2)
        "!r:x" "@alice:x" "http://b" none (some 7) 9
        = (none, Store.mk [⟨1, "!r:x", "@alice:x", "http://a", true, 0, none⟩] 2) := by
  refine ⟨⟨by decide, by decide⟩, ?_⟩
  exact register_missing_id_none
    (Store.mk [⟨1, "!r:x", "@alice:x", "http://a", true, 0, none⟩] 2)
    "!r:x" "@alice:x" "http://b" none 7 9 (by decide) (by decide)

theorem mem_insertById {a r : WebhookRegistration}
    {l : List WebhookRegistration} :
    a ∈ insertById r l ↔ a = r ∨ a ∈ l := by
  induction l with
  | nil => simp [insertById]
  | cons x xs ih =>
    by_cases hle : r.id ≤ x.id
    · simp [insertById, hle]
    · simp only [insertById, if_neg hle, List.mem_cons, ih]
      tauto

theorem mem_sortById {a : WebhookRegistration} {l : List WebhookRegistration} :
    a ∈ sortById l ↔ a ∈ l := by
  induction l with
  | nil => simp [sortById]
  | cons x xs ih =>
    simp only [sortById, List.foldr_cons, List.mem_cons]
    rw [show xs.foldr insertById [] = sortById xs from rfl] at *
    rw [mem_insertById, ih]

/-- C6: a registration whose `enabled` flag is false is never returned by
`get_webhooks_by_room` (so it receives no deliveries), while
`list_webhooks_for_room` still returns every row of the room; in particular
after `unregister_webhook_by_id` the disabled row is excluded from the
active listing of any room but still present in the full listing of its
room. -/
theorem disabled_excluded_from_active (s : Store) (room : String)
    (r : WebhookRegistration) (wid : Nat) (user : String) :
    (r.enabled = false → r ∉ get_webhooks_by_room s room)
    ∧ (r ∈ s.rows → r.room_id = room → r ∈ list_webhooks_for_room s room)
    ∧ (r ∈ (unregister_webhook_by_id s wid user).2.rows → r.id = wid →
        r.user_id = user →
        r ∉ get_webhooks_by_room (unregister_webhook_by_id s wid user).2 room
        ∧ (r.room_id = room →
            r ∈ list_webhooks_for_room (unregister_webhook_by_id s wid user).2 room)) := by
  have active_mem : ∀ (s2 : Store), r.enabled = false →
      r ∉ get_webhooks_by_room s2 room := by
    intro s2 hdis hmem
    rw [get_webhooks_by_room, List.mem_filter] at hmem
    simp [hdis] at hmem
  have all_mem : ∀ (s2 : Store), r ∈ s2.rows → r.room_id = room →
      r ∈ list_webhooks_for_room s2 room := by
    intro s2 hmem hroom
    rw [list_webhooks_for_room, mem_sortById, List.mem_filter]
    exact ⟨hmem, by simp [hroom]⟩
  refine ⟨active_mem s, all_mem s, ?_⟩
  intro hmem hid huser
  have hdis : r.enabled = false := by
    simp only [unregister_webhook_by_id, List.mem_map] at hmem
    obtain ⟨x, _, hx⟩ := hmem
    by_cases hp : (x.id == wid && x.user_id == user) = true
    · rw [if_pos hp] at hx
      rw [← hx]
    · rw [if_neg hp] at hx
      subst hx
      rw [Bool.and_eq_true, beq_iff_eq, beq_iff_eq] at hp
      exact absurd ⟨hid, huser⟩ hp
  exact ⟨active_mem _ hdis, fun hroom => all_mem _ hmem hroom⟩

/-- Witness for `disabled_excluded_from_active`: a store with one enabled
row which its owner then disables by id. -/
theorem disabled_excluded_from_active_witness :
    (⟨1, "!r:x", "@alice:x", "http://a", false, 0, none⟩
        ∈ (unregister_webhook_by_id
            (Store.mk [⟨1, "!r:x", "@alice:x", "http://a", true, 0, none⟩] 2)
            1 "@alice:x").2.rows)
    ∧ (⟨1, "!r:x", "@alice:x", "http://a", false, 0, none⟩
        ∉ get_webhooks_by_room
          (unregister_webhook_by_id
            (Store.mk [⟨1, "!r:x", "@alice:x", "http://a", true, 0, none⟩] 2)
            1 "@alice:x").2 "!r:x")
    ∧ (⟨1, "!r:x", "@alice:x", "http://a", false, 0, none⟩
        ∈ list_webhooks_for_room
          (unregister_webhook_by_id
            (Store.mk [⟨1, "!r:x", "@alice:x", "http://a", true, 0, none⟩] 2)
            1 "@alice:x").2 "!r:x") := by
  have hmem : (⟨1, "!r:x", "@alice:x", "http://a", false, 0, none⟩ :
      WebhookRegistration)
      ∈ (unregister_webhook_by_id
          (Store.mk [⟨1, "!r:x", "@alice:x", "http://a", true, 0, none⟩] 2)
          1 "@alice:x").2.rows := by decide
  have h := (disabled_excluded_from_active
    (Store.mk [⟨1, "!r:x", "@alice:x", "http://a", true, 0, none⟩] 2) "!r:x"
    ⟨1, "!r:x", "@alice:x", "http://a", false, 0, none⟩ 1 "@alice:x").2.2
    hmem rfl rfl
  exact ⟨hmem, h.1, h.2 rfl⟩

theorem on_message_gather_get (regs : List WebhookRegistration)
    (responses : Nat → Nat → AttemptOutcome) (maxRetries : Nat)
    (responseTemplate : String) :
    ∀ i j, (on_message_gather regs responses maxRetries responseTemplate i)[j]? =
      if j < regs.length then
        some (forward_to_webhook (responses (i + j)) maxRetries responseTemplate)
      else none := by
  induction regs with
  | nil => intro i j; simp [on_message_gather]
  | cons w rest ih =>
    intro i j
    cases j with
    | zero => simp [on_message_gather]
    | succ j2 =>
      simp only [on_message_gather, List.getElem?_cons_succ, ih (i + 1) j2,
        List.length_cons]
      by_cases hj : j2 < rest.length
      · rw [if_pos hj, if_pos (by omega)]
        have : i + 1 + j2 = i + (j2 + 1) := by omega
        rw [this]
      · rw [if_neg hj, if_neg (by omega)]

/-- C7: the fan-out of `on_message` is one task per registration, gathered
with `return_exceptions=True`; `forward_to_webhook` is a total function (the
per-registration `except Exception` boundary turns any escaping exception
into a logged `none`), the `j`-th gathered outcome is exactly the outcome of
delivering to the `j`-th registration alone, and it depends only on that
registration's own endpoint behaviour — sibling endpoints cannot affect it. -/
theorem fanout_isolation (regs : List WebhookRegistration)
    (responses responses2 : Nat → Nat → AttemptOutcome) (maxRetries : Nat)
    (responseTemplate : String) (j : Nat) :
    (on_message_gather regs responses maxRetries responseTemplate 0).length
      = regs.length
    ∧ (j < regs.length →
        (on_message_gather regs responses maxRetries responseTemplate 0)[j]? =
          some (forward_to_webhook (responses j) maxRetries responseTemplate))
    ∧ (responses j = responses2 j →
        (on_message_gather regs responses maxRetries responseTemplate 0)[j]? =
        (on_message_gather regs responses2 maxRetries responseTemplate 0)[j]?) := by
  have hlen : ∀ (rs : Nat → Nat → AttemptOutcome) i,
      (on_message_gather regs rs maxRetries responseTemplate i).length
        = regs.length := by
    intro rs
    induction regs with
    | nil => intro i; rfl
    | cons w rest ih =>
      intro i
      simp [on_message_gather, ih (i + 1)]
  refine ⟨hlen responses 0, ?_, ?_⟩
  · intro hj
    rw [on_message_gather_get regs responses maxRetries responseTemplate 0 j,
      if_pos hj, Nat.zero_add]
  · intro heq
    rw [on_message_gather_get, on_message_gather_get]
    by_cases hj : j < regs.length
    · rw [if_pos hj, if_pos hj, Nat.zero_add, heq]
    · rw [if_neg hj, if_neg hj]

/-- Witness for `fanout_isolation`: two registrations, the first endpoint
always raising, the second succeeding immediately; the second's gathered
outcome matches its solo delivery and ignores the first's behaviour. -/
theorem fanout_isolation_witness :
    (1 < ([⟨1, "!r:x", "@a:x", "http://a", true, 0, none⟩,
           ⟨2, "!r:x", "@b:x", "http://b", true, 0, none⟩] :
        List WebhookRegistration).length)
    ∧ ((fun _ _ => AttemptOutcome.response 200 "") 1
        = (fun j (_a : Nat) => if j = 0 then AttemptOutcome.raised
            else AttemptOutcome.response 200 "") 1)
    ∧ (on_message_gather
        [⟨1, "!r:x", "@a:x", "http://a", true, 0, none⟩,
         ⟨2, "!r:x", "@b:x", "http://b", true, 0, none⟩]
        (fun _ _ => AttemptOutcome.response 200 "") 3 "R: {response}" 0)[1]? =
      some (forward_to_webhook
        (fun _ => AttemptOutcome.response 200 "") 3 "R: {response}") := by
  refine ⟨by decide, by funext _a; simp, ?_⟩
  exact (fanout_isolation
    [⟨1, "!r:x", "@a:x", "http://a", true, 0, none⟩,
     ⟨2, "!r:x", "@b:x", "http://b", true, 0, none⟩]
    (fun _ _ => AttemptOutcome.response 200 "")
    (fun j (_a : Nat) => if j = 0 then AttemptOutcome.raised
      else AttemptOutcome.response 200 "") 3 "R: {response}" 1).2.1
    (by decide)

theorem lookup_append_left {k : String} {l1 l2 : List (String × JValue)} :
    List.lookup k (l1 ++ l2) =
      match List.lookup k l1 with
      | some v => some v
      | none => List.lookup k l2 := by
  induction l1 with
  | nil => simp [List.lookup]
  | cons kv rest ih =>
    by_cases hk : k == kv.1
    · simp [List.lookup, hk]
    · simp only [List.cons_append, List.lookup, hk]
      exact ih

theorem lookup_eq_none_of_not_mem_keys {k : String} {d : List (String × JValue)}
    (h : k ∉ d.map Prod.fst) : List.lookup k d = none := by
  induction d with
  | nil => rfl
  | cons kv rest ih =>
    simp only [List.map_cons, List.mem_cons] at h
    push_neg at h
    simp only [List.lookup, beq_eq_false_iff_ne.mpr h.1, ih h.2]

theorem lookup_map_overwrite {k : String} {v : JValue} :
    ∀ {d : List (String × JValue)}, d.any (fun kv => kv.1 == k) = true →
      List.lookup k (d.map (fun kv => if kv.1 == k then (k, v) else kv)) = some v := by
  intro d
  induction d with
  | nil => intro hany; simp at hany
  | cons kv rest ih =>
    obtain ⟨k1, v1⟩ := kv
    intro hany
    by_cases hk : (k1 == k) = true
    · rw [List.map_cons, if_pos hk]
      simp [List.lookup]
    · have hsym : (k == k1) = false := by
        rw [beq_eq_false_iff_ne]
        intro he
        exact hk (by simp [he])
      rw [List.map_cons, if_neg hk]
      simp only [List.any_cons, hk, Bool.false_or] at hany
      simp only [List.lookup, hsym]
      exact ih hany

theorem lookup_map_overwrite_other {k k2 : String} {v : JValue} (h : k ≠ k2) :
    ∀ {d : List (String × JValue)},
      List.lookup k (d.map (fun kv => if kv.1 == k2 then (k2, v) else kv)) =
        List.lookup k d := by
  intro d
  induction d with
  | nil => rfl
  | cons kv rest ih =>
    obtain ⟨k1, v1⟩ := kv
    by_cases hk : (k1 == k2) = true
    · have hkk : (k == k1) = false := by
        rw [beq_eq_false_iff_ne]
        intro he
        exact h (he.trans (beq_iff_eq.mp hk))
      rw [List.map_cons, if_pos hk]
      simp only [List.lookup, hkk, beq_eq_false_iff_ne.mpr h]
      exact ih
    · rw [List.map_cons, if_neg hk]
      simp only [List.lookup]
      by_cases hkk : (k == k1) = true
      · simp [hkk]
      · simp only [Bool.not_eq_true] at hkk
        simp only [hkk]
        exact ih

theorem lookup_dictSet_self {d : List (String × JValue)} {k : String}
    {v : JValue} : List.lookup k (dictSet d k v) = some v := by
  rw [dictSet]
  by_cases hany : d.any (fun kv => kv.1 == k)
  · rw [if_pos hany]
    exact lookup_map_overwrite hany
  · rw [if_neg hany, lookup_append_left]
    have hnone : List.lookup k d = none := by
      apply lookup_eq_none_of_not_mem_keys
      intro hmem
      apply hany
      rw [List.any_eq_true]
      obtain ⟨kv, hkv, hfst⟩ := List.mem_map.mp hmem
      exact ⟨kv, hkv, by simp [hfst]⟩
    simp [hnone, List.lookup]

theorem lookup_dictSet_other {d : List (String × JValue)} {k k2 : String}
    {v : JValue} (h : k ≠ k2) :
    List.lookup k (dictSet d k2 v) = List.lookup k d := by
  rw [dictSet]
  by_cases hany : d.any (fun kv => kv.1 == k2)
  · rw [if_pos hany]
    exact lookup_map_overwrite_other h
  · rw [if_neg hany, lookup_append_left]
    cases hl : List.lookup k d with
    | some v2 => rfl
    | none => simp [List.lookup, beq_eq_false_iff_ne.mpr h]

theorem lookup_dictUpdate_not_mem {u : List (String × JValue)} {k : String} :
    ∀ {d : List (String × JValue)}, k ∉ u.map Prod.fst →
      List.lookup k (dictUpdate d u) = List.lookup k d := by
  induction u with
  | nil => intro d _; rfl
  | cons kv rest ih =>
    intro d h
    simp only [List.map_cons, List.mem_cons] at h
    push_neg at h
    show List.lookup k (dictUpdate (dictSet d kv.1 kv.2) rest) = _
    rw [ih h.2, lookup_dictSet_other h.1]

theorem lookup_dictUpdate_mem {u : List (String × JValue)} {k : String}
    {v : JValue} :
    ∀ {d : List (String × JValue)}, (u.map Prod.fst).Nodup → (k, v) ∈ u →
      List.lookup k (dictUpdate d u) = some v := by
  induction u with
  | nil => intro d _ hmem; simp at hmem
  | cons kv rest ih =>
    intro d hnd hmem
    simp only [List.map_cons, List.nodup_cons] at hnd
    rcases List.mem_cons.mp hmem with hhead | htail
    · have hk : k ∉ rest.map Prod.fst := by
        rw [← hhead] at hnd
        exact hnd.1
      show List.lookup k (dictUpdate (dictSet d kv.1 kv.2) rest) = some v
      rw [lookup_dictUpdate_not_mem hk, ← hhead, lookup_dictSet_self]
    · exact ih hnd.2 htail

/-- C8: whenever the render loop completes with a dict `d`, `on_message`
merges the static `custom_fields` over `d` to form the payload; every key of
`custom_fields` carries the custom value — unconditionally overwriting any
same-named template output — and keys outside `custom_fields` carry exactly
the template-rendered value. -/
theorem custom_fields_override (cfg : Config) (evt : MessageEvent)
    (k : String) (v : JValue)
    (hnd : (cfg.custom_fields.map Prod.fst).Nodup) :
    ∀ d, renderMessageData cfg.include_empty_fields (raw_data evt)
        cfg.message_data_template = .ok d →
      on_message_payload cfg evt = .ok (dictUpdate d cfg.custom_fields)
      ∧ ((k, v) ∈ cfg.custom_fields →
          List.lookup k (dictUpdate d cfg.custom_fields) = some v)
      ∧ (k ∉ cfg.custom_fields.map Prod.fst →
          List.lookup k (dictUpdate d cfg.custom_fields) = List.lookup k d) := by
  intro d hd
  refine ⟨?_, fun hmem => lookup_dictUpdate_mem hnd hmem,
    fun hnot => lookup_dictUpdate_not_mem hnot⟩
  rw [on_message_payload, hd]
  rfl

/-- Witness for `custom_fields_override`: a custom field "source" overwrites
the template entry of the same name, and "msg" passes through. -/
theorem custom_fields_override_witness :
    ((renderMessageData false
        (raw_data ⟨"$e", "!r:x", "@a:x", 5, "m.text", "hi", none, none⟩)
        [("source", "\x7bsender\x7d"), ("msg", "\x7bbody\x7d")]
        = .ok [("source", JValue.str "@a:x"), ("msg", JValue.str "hi")])
      ∧ (["source", "tag"] : List String).Nodup
      ∧ ("source", JValue.str "custom") ∈
          [("source", JValue.str "custom"), ("tag", JValue.str "t")])
    ∧ on_message_payload
        ⟨3, [("source", "\x7bsender\x7d"), ("msg", "\x7bbody\x7d")],
         [("source", JValue.str "custom"), ("tag", JValue.str "t")],
         "R: \x7bresponse\x7d", false⟩
        ⟨"$e", "!r:x", "@a:x", 5, "m.text", "hi", none, none⟩
      = .ok (dictUpdate [("source", JValue.str "@a:x"), ("msg", JValue.str "hi")]
          [("source", JValue.str "custom"), ("tag", JValue.str "t")])
    ∧ List.lookup "source"
        (dictUpdate [("source", JValue.str "@a:x"), ("msg", JValue.str "hi")]
          [("source", JValue.str "custom"), ("tag", JValue.str "t")])
      = some (JValue.str "custom")
    ∧ List.lookup "msg"
        (dictUpdate [("source", JValue.str "@a:x"), ("msg", JValue.str "hi")]
          [("source", JValue.str "custom"), ("tag", JValue.str "t")])
      = some (JValue.str "hi") := by
  have h := custom_fields_override
    ⟨3, [("source", "\x7bsender\x7d"), ("msg", "\x7bbody\x7d")],
     [("source", JValue.str "custom"), ("tag", JValue.str "t")],
     "R: \x7bresponse\x7d", false⟩
    ⟨"$e", "!r:x", "@a:x", 5, "m.text", "hi", none, none⟩
    "source" (JValue.str "custom") (by decide)
    [("source", JValue.str "@a:x"), ("msg", JValue.str "hi")] (by decide)
  refine ⟨⟨by decide, by decide, by decide⟩, h.1, h.2.1 (by decide), ?_⟩
  have h2 := custom_fields_override
    ⟨3, [("source", "\x7bsender\x7d"), ("msg", "\x7bbody\x7d")],
     [("source", JValue.str "custom"), ("tag", JValue.str "t")],
     "R: \x7bresponse\x7d", false⟩
    ⟨"$e", "!r:x", "@a:x", 5, "m.text", "hi", none, none⟩
    "msg" JValue.null (by decide)
    [("source", JValue.str "@a:x"), ("msg", JValue.str "hi")] (by decide)
  rw [h2.2.2 (by decide)]
  decide

theorem renderEntry_ok_of_caught {incl : Bool} {fields : List (String × JValue)}
    {t : String}
    (h1 : pyFormat t fields ≠ .error FmtError.indexError)
    (h2 : pyFormat t fields ≠ .error FmtError.unmodeled) :
    ∃ o, renderEntry incl fields t = .ok o := by
  rw [renderEntry]
  cases hf : pyFormat t fields with
  | ok v => exact ⟨_, rfl⟩
  | error e =>
    cases e with
    | keyError => exact ⟨_, rfl⟩
    | valueError => exact ⟨_, rfl⟩
    | indexError => exact absurd hf h1
    | unmodeled => exact absurd hf h2

theorem renderMessageData_ok_of_caught {incl : Bool}
    {fields : List (String × JValue)} :
    ∀ {tmpl : List (String × String)},
      (∀ kt ∈ tmpl, pyFormat kt.2 fields ≠ .error FmtError.indexError
        ∧ pyFormat kt.2 fields ≠ .error FmtError.unmodeled) →
      ∃ d, renderMessageData incl fields tmpl = .ok d := by
  intro tmpl
  induction tmpl with
  | nil => intro _; exact ⟨[], rfl⟩
  | cons kt rest ih =>
    obtain ⟨k1, t1⟩ := kt
    intro h
    obtain ⟨o1, ho1⟩ := @renderEntry_ok_of_caught incl fields t1
      (h (k1, t1) (List.mem_cons_self _ _)).1
      (h (k1, t1) (List.mem_cons_self _ _)).2
    obtain ⟨d, hd⟩ := ih (fun kt hkt => h kt (List.mem_cons_of_mem _ hkt))
    rw [renderMessageData, ho1]
    cases o1 with
    | some v =>
      refine ⟨(k1, v) :: d, ?_⟩
      rw [hd]
      rfl
    | none => exact ⟨d, hd⟩

theorem renderMessageData_lookup_not_mem {incl : Bool}
    {fields : List (String × JValue)} {k : String} :
    ∀ {tmpl : List (String × String)} {d : List (String × JValue)},
      k ∉ tmpl.map Prod.fst →
      renderMessageData incl fields tmpl = .ok d →
      List.lookup k d = none := by
  intro tmpl
  induction tmpl with
  | nil =>
    intro d _ hd
    have hd2 : ([] : List (String × JValue)) = d := Except.ok.inj hd
    rw [← hd2]
    rfl
  | cons kt rest ih =>
    obtain ⟨k1, t1⟩ := kt
    intro d h hd
    simp only [List.map_cons, List.mem_cons] at h
    push_neg at h
    rw [renderMessageData] at hd
    cases hre : renderEntry incl fields t1 with
    | ok o =>
      rw [hre] at hd
      cases o with
      | some v =>
        cases hrest : renderMessageData incl fields rest with
        | ok d2 =>
          rw [hrest] at hd
          have hd2 : (k1, v) :: d2 = d := Except.ok.inj hd
          rw [← hd2]
          simp only [List.lookup, beq_eq_false_iff_ne.mpr h.1]
          exact ih h.2 hrest
        | error e =>
          rw [hrest] at hd
          exact Except.noConfusion
            (show Except.error e = Except.ok d from hd)
      | none => exact ih h.2 hd
    | error e =>
      rw [hre] at hd
      exact Except.noConfusion (show Except.error e = Except.ok d from hd)

theorem renderMessageData_ok_lookup {incl : Bool}
    {fields : List (String × JValue)} :
    ∀ {tmpl : List (String × String)} {k t : String} {o : Option JValue},
      (k, t) ∈ tmpl → (tmpl.map Prod.fst).Nodup →
      (∀ kt ∈ tmpl, pyFormat kt.2 fields ≠ .error FmtError.indexError
        ∧ pyFormat kt.2 fields ≠ .error FmtError.unmodeled) →
      renderEntry incl fields t = .ok o →
      ∃ d, renderMessageData incl fields tmpl = .ok d
        ∧ List.lookup k d = o := by
  intro tmpl
  induction tmpl with
  | nil => intro k t o hmem _ _ _; simp at hmem
  | cons kt rest ih =>
    obtain ⟨k1, t1⟩ := kt
    intro k t o hmem hnd hall ho
    simp only [List.map_cons, List.nodup_cons] at hnd
    have hallrest := fun kt hkt => hall kt (List.mem_cons_of_mem _ hkt)
    rcases List.mem_cons.mp hmem with hhead | htail
    · obtain ⟨hk, ht⟩ := Prod.mk.injEq .. ▸ hhead
      subst hk
      subst ht
      obtain ⟨d2, hd2⟩ := @renderMessageData_ok_of_caught incl fields rest hallrest
      rw [renderMessageData, ho]
      cases o with
      | some v =>
        refine ⟨(k, v) :: d2, ?_, ?_⟩
        · rw [hd2]
          rfl
        · simp [List.lookup]
      | none => exact ⟨d2, hd2, renderMessageData_lookup_not_mem hnd.1 hd2⟩
    · have hk1 : k1 ≠ k := by
        intro he
        subst he
        exact hnd.1 (List.mem_map.mpr ⟨(k1, t), htail, rfl⟩)
      obtain ⟨o1, ho1⟩ := @renderEntry_ok_of_caught incl fields t1
        (hall (k1, t1) (List.mem_cons_self _ _)).1
        (hall (k1, t1) (List.mem_cons_self _ _)).2
      obtain ⟨d2, hd2, hl⟩ := ih htail hnd.2 hallrest ho
      rw [renderMessageData, ho1]
      cases o1 with
      | some v =>
        refine ⟨(k1, v) :: d2, ?_, ?_⟩
        · rw [hd2]
          rfl
        · simp only [List.lookup, beq_eq_false_iff_ne.mpr (Ne.symm hk1)]
          exact hl
      | none => exact ⟨d2, hd2, hl⟩

theorem renderEntry_some_iff {incl : Bool} {fields : List (String × JValue)}
    {t : String} {o : Option JValue}
    (ho : renderEntry incl fields t = .ok o) :
    (∃ v, o = some v)
      ↔ (incl = true
          ∨ ∃ v, pyFormat t fields = .ok v ∧ v ≠ "" ∧ v ≠ "None") := by
  rw [renderEntry] at ho
  cases hfmt : pyFormat t fields with
  | ok v =>
    rw [hfmt] at ho
    have ho2 : o = if incl || (v ≠ "" && v ≠ "None") then some (JValue.str v)
        else none := (Except.ok.inj ho).symm
    subst ho2
    by_cases hb : (incl || (v ≠ "" && v ≠ "None")) = true
    · rw [if_pos hb]
      constructor
      · intro _
        have hb2 := hb
        rw [Bool.or_eq_true] at hb2
        rcases hb2 with hinc | hval
        · exact Or.inl hinc
        · rw [Bool.and_eq_true, decide_eq_true_iff, decide_eq_true_iff] at hval
          exact Or.inr ⟨v, rfl, hval.1, hval.2⟩
      · intro _
        exact ⟨JValue.str v, rfl⟩
    · rw [if_neg hb]
      constructor
      · intro ⟨w, hw⟩
        exact absurd hw (by simp)
      · intro hor
        rcases hor with hinc | ⟨w, hw, hw1, hw2⟩
        · exfalso
          apply hb
          rw [hinc]
          rfl
        · exfalso
          apply hb
          rw [Except.ok.injEq] at hw
          subst hw
          simp [hw1, hw2]
  | error e =>
    rw [hfmt] at ho
    cases e with
    | keyError =>
      have ho2 : o = if incl then some JValue.null else none :=
        (Except.ok.inj ho).symm
      subst ho2
      cases incl with
      | true =>
        constructor
        · intro _; exact Or.inl rfl
        · intro _; exact ⟨JValue.null, rfl⟩
      | false =>
        constructor
        · intro ⟨w, hw⟩
          exact absurd hw (by simp)
        · intro hor
          rcases hor with hinc | ⟨w, hw, _, _⟩
          · exact absurd hinc (by simp)
          · exact absurd hw (by simp)
    | valueError =>
      have ho2 : o = if incl then some JValue.null else none :=
        (Except.ok.inj ho).symm
      subst ho2
      cases incl with
      | true =>
        constructor
        · intro _; exact Or.inl rfl
        · intro _; exact ⟨JValue.null, rfl⟩
      | false =>
        constructor
        · intro ⟨w, hw⟩
          exact absurd hw (by simp)
        · intro hor
          rcases hor with hinc | ⟨w, hw, _, _⟩
          · exact absurd hinc (by simp)
          · exact absurd hw (by simp)
    | indexError => exact absurd ho (by simp)
    | unmodeled => exact absurd ho (by simp)

theorem renderMessageData_abort {incl : Bool}
    {fields : List (String × JValue)} :
    ∀ {tmpl : List (String × String)} {k t : String},
      (k, t) ∈ tmpl → pyFormat t fields = .error FmtError.indexError →
      ∃ e, renderMessageData incl fields tmpl = .error e := by
  intro tmpl
  induction tmpl with
  | nil => intro k t hmem _; simp at hmem
  | cons kt rest ih =>
    obtain ⟨k1, t1⟩ := kt
    intro k t hmem hidx
    rcases List.mem_cons.mp hmem with hhead | htail
    · obtain ⟨hk, ht⟩ := Prod.mk.injEq .. ▸ hhead
      subst hk
      subst ht
      have hre : renderEntry incl fields t = .error FmtError.indexError := by
        rw [renderEntry, hidx]
      refine ⟨FmtError.indexError, ?_⟩
      rw [renderMessageData, hre]
    · cases hre : renderEntry incl fields t1 with
      | ok o =>
        obtain ⟨e, he⟩ := ih htail hidx
        refine ⟨e, ?_⟩
        rw [renderMessageData, hre]
        cases o with
        | some v =>
          rw [he]
          rfl
        | none => exact he
      | error e2 =>
        refine ⟨e2, ?_⟩
        rw [renderMessageData, hre]

/-- C4 (amended): when every entry of the template stays within the error
classes the per-entry `except (KeyError, ValueError)` catches (unknown named
placeholder, malformed braces) — no empty/positional placeholder and no
syntax outside the modelled template language — the render completes, each
template key is bound to exactly the outcome of its own entry's substitution
(one entry's caught failure never disturbs another entry), and the key is
present precisely when its substitution succeeded with a value that is
non-empty and not the literal "None", or `include_empty_fields` is set (a
caught failed entry then appearing as null).  But an entry whose placeholder
is empty or positional (IndexError) escapes the per-entry handler and aborts
the whole render: no dict is produced, so the remaining entries are dropped
and `on_message` delivers nothing for the event. -/
theorem render_field_policy (incl : Bool) (fields : List (String × JValue))
    (tmpl : List (String × String)) (k t : String)
    (hmem : (k, t) ∈ tmpl) (hnd : (tmpl.map Prod.fst).Nodup) :
    ((∀ kt ∈ tmpl, pyFormat kt.2 fields ≠ .error FmtError.indexError
        ∧ pyFormat kt.2 fields ≠ .error FmtError.unmodeled) →
      ∃ d o, renderMessageData incl fields tmpl = .ok d
        ∧ renderEntry incl fields t = .ok o
        ∧ List.lookup k d = o
        ∧ ((∃ v, o = some v)
            ↔ (incl = true
                ∨ ∃ v, pyFormat t fields = .ok v ∧ v ≠ "" ∧ v ≠ "None")))
    ∧ (pyFormat t fields = .error FmtError.indexError →
        ∃ e, renderMessageData incl fields tmpl = .error e) := by
  constructor
  · intro hall
    obtain ⟨o, ho⟩ := @renderEntry_ok_of_caught incl fields t
      (hall (k, t) hmem).1 (hall (k, t) hmem).2
    obtain ⟨d, hd, hl⟩ := renderMessageData_ok_lookup hmem hnd hall ho
    exact ⟨d, o, hd, ho, hl, renderEntry_some_iff ho⟩
  · intro hidx
    exact renderMessageData_abort hmem hidx

/-- Counterexample to C4 as stated: with the template entry "oops" holding
the positional placeholder "\x7b\x7d", its IndexError is not caught by the
per-entry handler — the render aborts, the sibling entry "msg" (whose own
substitution succeeds with the non-empty value "hi") is dropped with it, and
`on_message` forwards nothing for the event despite an active registration. -/
theorem render_field_policy_counterexample :
    renderMessageData false
        (raw_data ⟨"$e", "!r:x", "@a:x", 5, "m.text", "hi", none, none⟩)
        [("oops", "\x7b\x7d"), ("msg", "\x7bbody\x7d")]
      = .error FmtError.indexError
    ∧ pyFormat "\x7bbody\x7d"
        (raw_data ⟨"$e", "!r:x", "@a:x", 5, "m.text", "hi", none, none⟩)
      = .ok "hi"
    ∧ on_message
        ⟨3, [("oops", "\x7b\x7d"), ("msg", "\x7bbody\x7d")], [],
         "R: \x7bresponse\x7d", false⟩
        (Store.mk [⟨1, "!r:x", "@a:x", "http://a", true, 0, none⟩] 2)
        ⟨"$e", "!r:x", "@a:x", 5, "m.text", "hi", none, none⟩ "@bot:x"
      = [] := by
  refine ⟨by decide, by decide, by decide⟩

/-- Witness for `render_field_policy`: with `include_empty_fields = false`
and an empty body, both entries stay in the caught error classes, the render
completes, and the "msg" binding equals its own entry outcome (here:
omitted), independent of the sibling failing entry "bad". -/
theorem render_field_policy_witness :
    ((("msg", "\x7bbody\x7d") ∈
        [("msg", "\x7bbody\x7d"), ("bad", "\x7bzz\x7d")]
      ∧ ((["msg", "bad"] : List String).Nodup)
      ∧ (∀ kt ∈ ([("msg", "\x7bbody\x7d"), ("bad", "\x7bzz\x7d")] :
            List (String × String)),
          pyFormat kt.2 [("body", JValue.str ""), ("sender", JValue.str "@a:x")]
            ≠ .error FmtError.indexError
          ∧ pyFormat kt.2 [("body", JValue.str ""), ("sender", JValue.str "@a:x")]
            ≠ .error FmtError.unmodeled))
    ∧ ∃ d o, renderMessageData false
          [("body", JValue.str ""), ("sender", JValue.str "@a:x")]
          [("msg", "\x7bbody\x7d"), ("bad", "\x7bzz\x7d")] = .ok d
        ∧ renderEntry false
            [("body", JValue.str ""), ("sender", JValue.str "@a:x")]
            "\x7bbody\x7d" = .ok o
        ∧ List.lookup "msg" d = o
        ∧ ((∃ v, o = some v)
            ↔ (false = true
                ∨ ∃ v, pyFormat "\x7bbody\x7d"
                    [("body", JValue.str ""), ("sender", JValue.str "@a:x")]
                  = .ok v ∧ v ≠ "" ∧ v ≠ "None"))) := by
  refine ⟨⟨by decide, by decide, by decide⟩, ?_⟩
  exact (render_field_policy false
    [("body", JValue.str ""), ("sender", JValue.str "@a:x")]
    [("msg", "\x7bbody\x7d"), ("bad", "\x7bzz\x7d")]
    "msg" "\x7bbody\x7d" (by decide) (by decide)).1 (by decide)

/-- C9: the payload `on_message` sends is rendered from the global config
template only — rewriting every registration's stored `message_data_template`
(keeping all other columns) changes nothing about the dispatched payloads,
and every registration of the room receives the identical payload. -/
theorem payload_uses_global_template (cfg : Config) (s : Store)
    (evt : MessageEvent) (botId : String) (f : WebhookRegistration → WebhookRegistration)
    (hf : ∀ r ∈ s.rows, (f r).id = r.id ∧ (f r).room_id = r.room_id
      ∧ (f r).user_id = r.user_id ∧ (f r).webhook_url = r.webhook_url
      ∧ (f r).enabled = r.enabled ∧ (f r).created_at = r.created_at) :
    on_message cfg ⟨s.rows.map f, s.nextId⟩ evt botId
      = (on_message cfg s evt botId).map (fun p => (f p.1, p.2))
    ∧ (∀ p q, p ∈ on_message cfg s evt botId → q ∈ on_message cfg s evt botId
        → p.2 = q.2) := by
  constructor
  · rw [on_message, on_message]
    by_cases h1 : (evt.sender == botId) = true
    · rw [if_pos h1, if_pos h1]
      rfl
    · rw [if_neg h1, if_neg h1]
      by_cases h2 : (evt.msgtype == "m.text" && pyStartsWith (pyStrip evt.body) "!webhook") = true
      · rw [if_pos h2, if_pos h2]
        rfl
      · rw [if_neg h2, if_neg h2]
        cases hpay : on_message_payload cfg evt with
        | error e => rfl
        | ok payload =>
          show ((Store.mk (s.rows.map f) s.nextId).rows.filter _).map _ = _
          rw [show (Store.mk (s.rows.map f) s.nextId).rows = s.rows.map f from rfl,
            List.filter_map]
          have hpred :
              s.rows.filter ((fun r => r.room_id == evt.room_id && r.enabled) ∘ f)
                = s.rows.filter (fun r => r.room_id == evt.room_id && r.enabled) := by
            apply List.filter_congr
            intro r hr
            obtain ⟨_, hroom, _, _, hen, _⟩ := hf r hr
            simp [Function.comp, hroom, hen]
          rw [hpred]
          show _ = ((get_webhooks_by_room s evt.room_id).map _).map _
          rw [get_webhooks_by_room, List.map_map, List.map_map]
          rfl
  · intro p q hp hq
    rw [on_message] at hp hq
    by_cases h1 : (evt.sender == botId) = true
    · rw [if_pos h1] at hp
      simp at hp
    · rw [if_neg h1] at hp hq
      by_cases h2 : (evt.msgtype == "m.text" && pyStartsWith (pyStrip evt.body) "!webhook") = true
      · rw [if_pos h2] at hp
        simp at hp
      · rw [if_neg h2] at hp hq
        cases hpay : on_message_payload cfg evt with
        | error e =>
          rw [hpay] at hp
          exact absurd hp (List.not_mem_nil p)
        | ok payload =>
          rw [hpay] at hp hq
          obtain ⟨w1, _, hw1⟩ := List.mem_map.mp hp
          obtain ⟨w2, _, hw2⟩ := List.mem_map.mp hq
          rw [← hw1, ← hw2]

/-- Witness for `payload_uses_global_template`: rewriting the stored
template of the single registration of a room leaves the dispatched
pairs' payloads untouched. -/
theorem payload_uses_global_template_witness :
    (∀ r ∈ (Store.mk [⟨1, "!r:x", "@a:x", "http://a", true, 0, none⟩] 2).rows,
      ((fun w : WebhookRegistration => { w with message_data_template := some [("k", "v")] }) r).id = r.id
      ∧ ((fun w : WebhookRegistration => { w with message_data_template := some [("k", "v")] }) r).room_id = r.room_id
      ∧ ((fun w : WebhookRegistration => { w with message_data_template := some [("k", "v")] }) r).user_id = r.user_id
      ∧ ((fun w : WebhookRegistration => { w with message_data_template := some [("k", "v")] }) r).webhook_url = r.webhook_url
      ∧ ((fun w : WebhookRegistration => { w with message_data_template := some [("k", "v")] }) r).enabled = r.enabled
      ∧ ((fun w : WebhookRegistration => { w with message_data_template := some [("k", "v")] }) r).created_at = r.created_at)
    ∧ on_message ⟨3, [("msg", "\x7bbody\x7d")], [], "R: \x7bresponse\x7d", false⟩
        ⟨((Store.mk [⟨1, "!r:x", "@a:x", "http://a", true, 0, none⟩] 2)).rows.map
          (fun w : WebhookRegistration => { w with message_data_template := some [("k", "v")] }),
         (Store.mk [⟨1, "!r:x", "@a:x", "http://a", true, 0, none⟩] 2).nextId⟩
        ⟨"$e", "!r:x", "@a:x", 5, "m.text", "hi", none, none⟩ "@bot:x"
      = (on_message ⟨3, [("msg", "\x7bbody\x7d")], [], "R: \x7bresponse\x7d", false⟩
          (Store.mk [⟨1, "!r:x", "@a:x", "http://a", true, 0, none⟩] 2)
          ⟨"$e", "!r:x", "@a:x", 5, "m.text", "hi", none, none⟩ "@bot:x").map
          (fun p => ((fun w : WebhookRegistration => { w with message_data_template := some [("k", "v")] }) p.1, p.2)) := by
  refine ⟨by decide, ?_⟩
  exact (payload_uses_global_template
    ⟨3, [("msg", "\x7bbody\x7d")], [], "R: \x7bresponse\x7d", false⟩
    (Store.mk [⟨1, "!r:x", "@a:x", "http://a", true, 0, none⟩] 2)
    ⟨"$e", "!r:x", "@a:x", 5, "m.text", "hi", none, none⟩ "@bot:x"
    (fun w : WebhookRegistration => { w with message_data_template := some [("k", "v")] })
    (by decide)).1

/-- Attempt outcomes the retry policy applies to: a timeout, a transport
error, or a response whose status is not 200. -/
def isFailureOutcome : AttemptOutcome → Bool
  | .response status _ => status != 200
  | .timeout => true
  | .clientError => true
  | .raised => false

theorem handleResponse_retry_of_failure {o : AttemptOutcome} {rt : String}
    (h : isFailureOutcome o = true) : handleResponse o rt = .retry := by
  cases o with
  | response status body =>
    have hne : status ≠ 200 := by simpa [isFailureOutcome] using h
    simp [handleResponse, hne]
  | timeout => rfl
  | clientError => rfl
  | raised => simp [isFailureOutcome] at h

theorem attemptLoop_all_retry (responses : Nat → AttemptOutcome) (rt : String) :
    ∀ (n a : Nat), (∀ j, a ≤ j → j ≤ a + n →
        handleResponse (responses j) rt = .retry) →
      attemptLoop responses rt a n
        = .ok ⟨a + n + 1, (List.range' a n).map (fun x => 2 ^ x), none, false⟩ := by
  intro n
  induction n with
  | zero =>
    intro a h
    rw [attemptLoop, h a (Nat.le_refl a) (by omega)]
    rfl
  | succ m ih =>
    intro a h
    rw [attemptLoop, h a (Nat.le_refl a) (by omega),
      ih (a + 1) (fun j h1 h2 => h j (by omega) (by omega))]
    have hn : a + 1 + m + 1 = a + (m + 1) + 1 := by omega
    rw [List.range'_succ, List.map_cons, ← hn]

/-- C1: a delivery whose destination never returns HTTP 200 (every attempt
times out, errors at transport level, or gets a non-200 status) performs
exactly `max_webhook_retries + 1` POST attempts, sleeps `2 ^ attempt` after
every attempt except the last — strictly increasing delays 1, 2, 4, ... and
no backoff after the final attempt — and is then abandoned with no reply
sent to the room. -/
theorem delivery_exhaustion_backoff (responses : Nat → AttemptOutcome)
    (maxRetries : Nat) (rt : String)
    (h : ∀ j, j ≤ maxRetries → isFailureOutcome (responses j) = true) :
    forward_to_webhook responses maxRetries rt
      = some ⟨maxRetries + 1, (List.range maxRetries).map (fun x => 2 ^ x),
          none, false⟩
    ∧ ((List.range maxRetries).map (fun x => 2 ^ x)).Pairwise (· < ·) := by
  constructor
  · rw [forward_to_webhook,
      attemptLoop_all_retry responses rt maxRetries 0
        (fun j h1 h2 => handleResponse_retry_of_failure (h j (by omega)))]
    have h0 : 0 + maxRetries + 1 = maxRetries + 1 := by omega
    rw [h0, List.range_eq_range']
    rfl
  · refine List.Pairwise.map _ ?_ (List.pairwise_lt_range maxRetries)
    intro a b hab
    exact Nat.pow_lt_pow_right (by norm_num) hab

/-- Witness for `delivery_exhaustion_backoff`: a destination that always
times out, with `max_webhook_retries = 3`: 4 attempts, sleeps 1, 2, 4. -/
theorem delivery_exhaustion_backoff_witness :
    (∀ j, j ≤ 3 → isFailureOutcome ((fun _ => AttemptOutcome.timeout) j) = true)
    ∧ forward_to_webhook (fun _ => AttemptOutcome.timeout) 3 "R: \x7bresponse\x7d"
        = some ⟨4, [1, 2, 4], none, false⟩ := by
  refine ⟨fun j _ => rfl, ?_⟩
  have h := (delivery_exhaustion_backoff (fun _ => AttemptOutcome.timeout) 3
    "R: \x7bresponse\x7d" (fun j _ => rfl)).1
  rw [h]
  decide

theorem attemptLoop_succeeds (responses : Nat → AttemptOutcome) (rt : String)
    (rep : Option String) :
    ∀ (k a n : Nat), k ≤ n →
      (∀ j, a ≤ j → j < a + k → handleResponse (responses j) rt = .retry) →
      handleResponse (responses (a + k)) rt = .succeed rep →
      attemptLoop responses rt a n
        = .ok ⟨a + k + 1, (List.range' a k).map (fun x => 2 ^ x), rep, true⟩ := by
  intro k
  induction k with
  | zero =>
    intro a n _ _ hs
    rw [Nat.add_zero] at hs
    cases n with
    | zero =>
      rw [attemptLoop, hs]
      rfl
    | succ m =>
      rw [attemptLoop, hs]
      rfl
  | succ m ih =>
    intro a n hk hfail hs
    obtain ⟨n2, rfl⟩ : ∃ n2, n = n2 + 1 := ⟨n - 1, by omega⟩
    rw [attemptLoop, hfail a (Nat.le_refl a) (by omega),
      ih (a + 1) n2 (by omega) (fun j h1 h2 => hfail j (by omega) (by omega))
        (by rw [show a + 1 + m = a + (m + 1) from by omega]; exact hs)]
    have hn : a + 1 + m + 1 = a + (m + 1) + 1 := by omega
    rw [List.range'_succ, List.map_cons, ← hn]

/-- C5: when attempt `i` receives HTTP 200 (after `i` failed attempts), the
delivery stops there — `i + 1` attempts total, successful; an empty response
body produces no reply, and a non-empty body, stripped and substituted for
`\x7bresponse\x7d` in the configured response template, is relayed as the
reply into the originating room. -/
theorem delivery_success_stops (responses : Nat → AttemptOutcome)
    (maxRetries : Nat) (rt : String) (i : Nat) (body : String)
    (hi : i ≤ maxRetries)
    (hfail : ∀ j, j < i → isFailureOutcome (responses j) = true)
    (hresp : responses i = .response 200 body) :
    (body = "" → forward_to_webhook responses maxRetries rt
        = some ⟨i + 1, (List.range i).map (fun x => 2 ^ x), none, true⟩)
    ∧ (∀ rs, body ≠ "" →
        pyFormat rt [("response", .str (pyStrip body))] = .ok rs →
        forward_to_webhook responses maxRetries rt
          = some ⟨i + 1, (List.range i).map (fun x => 2 ^ x), some rs, true⟩) := by
  have hbase : ∀ rep, handleResponse (responses i) rt = .succeed rep →
      forward_to_webhook responses maxRetries rt
        = some ⟨i + 1, (List.range i).map (fun x => 2 ^ x), rep, true⟩ := by
    intro rep hstep
    rw [forward_to_webhook,
      attemptLoop_succeeds responses rt rep i 0 maxRetries hi
        (fun j h1 h2 => handleResponse_retry_of_failure (hfail j (by omega)))
        (by rw [Nat.zero_add]; exact hstep)]
    have h0 : 0 + i + 1 = i + 1 := by omega
    rw [h0, List.range_eq_range']
    rfl
  constructor
  · intro hempty
    apply hbase none
    rw [hresp, handleResponse]
    simp [hempty]
  · intro rs hne hfmt
    apply hbase (some rs)
    rw [hresp, handleResponse]
    simp only [if_pos rfl, hne, hfmt]
    simp [hne]

/-- Witness for `delivery_success_stops`: two failures then a 200 with body
" pong " and `max_webhook_retries = 3`: three attempts, sleeps 1 and 2, and
the reply "R: pong". -/
theorem delivery_success_stops_witness :
    (2 ≤ 3
      ∧ (∀ j, j < 2 → isFailureOutcome
          ((fun j => if j < 2 then AttemptOutcome.response 500 ""
            else AttemptOutcome.response 200 " pong ") j) = true)
      ∧ (fun j => if j < 2 then AttemptOutcome.response 500 ""
          else AttemptOutcome.response 200 " pong ") 2
        = AttemptOutcome.response 200 " pong "
      ∧ pyFormat "R: \x7bresponse\x7d" [("response", .str (pyStrip " pong "))]
        = .ok "R: pong")
    ∧ forward_to_webhook
        (fun j => if j < 2 then AttemptOutcome.response 500 ""
          else AttemptOutcome.response 200 " pong ") 3 "R: \x7bresponse\x7d"
      = some ⟨3, [1, 2], some "R: pong", true⟩ := by
  refine ⟨⟨by decide, ?_, by decide, by decide⟩, ?_⟩
  · intro j hj
    interval_cases j <;> decide
  · have h := (delivery_success_stops
      (fun j => if j < 2 then AttemptOutcome.response 500 ""
        else AttemptOutcome.response 200 " pong ") 3 "R: \x7bresponse\x7d" 2
      " pong " (by decide) (fun j hj => by interval_cases j <;> decide)
      (by decide)).2 "R: pong" (by decide) (by decide)
    rw [h]
    decide

theorem find?_map_update {α : Type} (p : α → Bool) (g : α → α)
    (hg : ∀ x, p (g x) = p x) :
    ∀ (l : List α) (r : α), r ∈ l → p r = true →
      (∀ x ∈ l, p x = true → x = r) →
      (l.map (fun x => if p x then g x else x)).find? p = some (g r) := by
  intro l
  induction l with
  | nil => intro r hr; simp at hr
  | cons x xs ih =>
    intro r hr hpr huniq
    by_cases hx : p x = true
    · have hxr : x = r := huniq x (List.mem_cons_self x xs) hx
      rw [List.map_cons, if_pos hx,
        List.find?_cons_of_pos _ (by rw [hg]; exact hx), hxr]
    · have hrx : r ∈ xs := by
        rcases List.mem_cons.mp hr with he | hm
        · exact absurd (he ▸ hpr) hx
        · exact hm
      rw [List.map_cons, if_neg hx,
        List.find?_cons_of_neg _ (by simpa using hx)]
      exact ih r hrx hpr (fun y hy hpy => huniq y (List.mem_cons_of_mem x hy) hpy)

/-- The (room, user, url) key on which the store keeps its uniqueness
constraint. -/
def tripleKey (r : WebhookRegistration) : String × String × String :=
  (r.room_id, r.user_id, r.webhook_url)

/-- C3: the three branches of `register_webhook`.  (a) With a non-zero
`webhook_id` naming a row the acting user owns, exactly that row is
re-enabled with its template overwritten, it is the returned row, and every
other row is untouched.  (b) Without an id, if a row with the same
(room, subscriber, url) triple exists, that row is enabled with its template
overwritten, the row ids — in particular its own — are unchanged and no row
is added, so no duplicate is created.  (c) Otherwise a fresh enabled row
with the next id and `created_at = now` is appended and returned. -/
theorem register_webhook_branches (s : Store) (room user url : String)
    (tmpl : Option (List (String × String))) (now : Nat) :
    (∀ i r, i ≠ 0 → r ∈ s.rows → r.id = i → r.user_id = user →
      (s.rows.map WebhookRegistration.id).Nodup →
      (register_webhook s room user url tmpl (some i) now).1
        = some { r with enabled := true, message_data_template := normTemplate tmpl }
      ∧ (register_webhook s room user url tmpl (some i) now).2.rows.length
          = s.rows.length
      ∧ { r with enabled := true, message_data_template := normTemplate tmpl }
          ∈ (register_webhook s room user url tmpl (some i) now).2.rows
      ∧ (∀ x ∈ s.rows, x.id ≠ i →
          x ∈ (register_webhook s room user url tmpl (some i) now).2.rows))
    ∧ (∀ r, r ∈ s.rows → r.room_id = room → r.user_id = user →
        r.webhook_url = url → (s.rows.map tripleKey).Nodup →
      (register_webhook s room user url tmpl none now).1
        = some { r with enabled := true, message_data_template := normTemplate tmpl }
      ∧ (register_webhook s room user url tmpl none now).2.rows.map
          WebhookRegistration.id = s.rows.map WebhookRegistration.id
      ∧ { r with enabled := true, message_data_template := normTemplate tmpl }
          ∈ (register_webhook s room user url tmpl none now).2.rows
      ∧ (∀ x ∈ s.rows, ¬(x.room_id = room ∧ x.user_id = user ∧ x.webhook_url = url) →
          x ∈ (register_webhook s room user url tmpl none now).2.rows))
    ∧ ((∀ x ∈ s.rows, ¬(x.room_id = room ∧ x.user_id = user ∧ x.webhook_url = url)) →
      register_webhook s room user url tmpl none now
        = (some ⟨s.nextId, room, user, url, true, now, normTemplate tmpl⟩,
           ⟨s.rows ++ [⟨s.nextId, room, user, url, true, now, normTemplate tmpl⟩],
            s.nextId + 1⟩)) := by
  refine ⟨?_, ?_, ?_⟩
  · intro i r hi hr hid huser hnd
    simp only [register_webhook, if_neg hi]
    have hpr : (r.id == i && r.user_id == user) = true := by
      simp [hid, huser]
    have huniq : ∀ x ∈ s.rows, (x.id == i && x.user_id == user) = true → x = r := by
      intro x hx hpx
      rw [Bool.and_eq_true, beq_iff_eq, beq_iff_eq] at hpx
      exact List.inj_on_of_nodup_map hnd hx hr (by rw [hpx.1, hid])
    have hfind := find?_map_update
      (fun x => x.id == i && x.user_id == user)
      (fun x => { x with enabled := true, message_data_template := normTemplate tmpl })
      (fun x => rfl) s.rows r hr hpr huniq
    refine ⟨hfind, by rw [List.length_map], ?_, ?_⟩
    · refine List.mem_map.mpr ⟨r, hr, ?_⟩
      simp only [hpr, if_true]
    · intro x hx hxid
      have hpx : (x.id == i && x.user_id == user) = false := by
        simp [hxid]
      refine List.mem_map.mpr ⟨x, hx, ?_⟩
      simp only [hpx, Bool.false_eq_true, if_false]
  · intro r hr hroom huser hurl hnd
    have hpr : (r.room_id == room && r.user_id == user && r.webhook_url == url)
        = true := by
      simp [hroom, huser, hurl]
    have huniq : ∀ x ∈ s.rows,
        (x.room_id == room && x.user_id == user && x.webhook_url == url) = true →
        x = r := by
      intro x hx hpx
      simp only [Bool.and_eq_true, beq_iff_eq] at hpx
      refine List.inj_on_of_nodup_map hnd hx hr ?_
      rw [tripleKey, tripleKey, hpx.1.1, hpx.1.2, hpx.2, hroom, huser, hurl]
    obtain ⟨w, hw⟩ : ∃ w, s.rows.find?
        (fun x => x.room_id == room && x.user_id == user && x.webhook_url == url)
        = some w := by
      cases hfw : s.rows.find?
          (fun x => x.room_id == room && x.user_id == user && x.webhook_url == url) with
      | some w => exact ⟨w, rfl⟩
      | none =>
        rw [List.find?_eq_none] at hfw
        exact absurd hpr (by simpa using hfw r hr)
    simp only [register_webhook, registerByUrl, hw]
    have hfind := find?_map_update
      (fun x => x.room_id == room && x.user_id == user && x.webhook_url == url)
      (fun x => { x with enabled := true, message_data_template := normTemplate tmpl })
      (fun x => rfl) s.rows r hr hpr huniq
    refine ⟨hfind, ?_, ?_, ?_⟩
    · rw [List.map_map]
      apply List.map_congr_left
      intro x hx
      by_cases hpx : (x.room_id == room && x.user_id == user && x.webhook_url == url) = true
      · simp only [Function.comp, if_pos hpx]
      · simp only [Function.comp, if_neg hpx]
    · refine List.mem_map.mpr ⟨r, hr, ?_⟩
      simp only [hpr, if_true]
    · intro x hx hxt
      have hpx : (x.room_id == room && x.user_id == user && x.webhook_url == url)
          = false := by
        rw [Bool.eq_false_iff]
        intro hc
        simp only [Bool.and_eq_true, beq_iff_eq] at hc
        exact hxt ⟨hc.1.1, hc.1.2, hc.2⟩
      refine List.mem_map.mpr ⟨x, hx, ?_⟩
      simp only [hpx, Bool.false_eq_true, if_false]
  · intro hnone
    have hfind : s.rows.find?
        (fun x => x.room_id == room && x.user_id == user && x.webhook_url == url)
        = none := by
      rw [List.find?_eq_none]
      intro x hx
      rw [Bool.not_eq_true, Bool.eq_false_iff]
      intro hc
      simp only [Bool.and_eq_true, beq_iff_eq] at hc
      exact hnone x hx ⟨hc.1.1, hc.1.2, hc.2⟩
    simp only [register_webhook, registerByUrl, hfind]

/-- Witness for `register_webhook_branches`: a store with one disabled row
(id 1), exercised through all three branches — re-enable by id, re-register
the same triple, and register a fresh url. -/
theorem register_webhook_branches_witness :
    (((Store.mk [⟨1, "!r:x", "@a:x", "http://a", false, 5, none⟩] 2).rows.map
        WebhookRegistration.id).Nodup
      ∧ (register_webhook (Store.mk [⟨1, "!r:x", "@a:x", "http://a", false, 5, none⟩] 2)
          "!r:x" "@a:x" "http://a" (some [("k", "v")]) (some 1) 9).1
        = some ⟨1, "!r:x", "@a:x", "http://a", true, 5, some [("k", "v")]⟩)
    ∧ (((Store.mk [⟨1, "!r:x", "@a:x", "http://a", false, 5, none⟩] 2).rows.map
          tripleKey).Nodup
      ∧ (register_webhook (Store.mk [⟨1, "!r:x", "@a:x", "http://a", false, 5, none⟩] 2)
          "!r:x" "@a:x" "http://a" (some [("k", "v")]) none 9).2.rows.map
            WebhookRegistration.id
        = (Store.mk [⟨1, "!r:x", "@a:x", "http://a", false, 5, none⟩] 2).rows.map
            WebhookRegistration.id)
    ∧ ((∀ x ∈ (Store.mk [⟨1, "!r:x", "@a:x", "http://a", false, 5, none⟩] 2).rows,
          ¬(x.room_id = "!r:x" ∧ x.user_id = "@a:x" ∧ x.webhook_url = "http://b"))
      ∧ register_webhook (Store.mk [⟨1, "!r:x", "@a:x", "http://a", false, 5, none⟩] 2)
          "!r:x" "@a:x" "http://b" none none 9
        = (some ⟨2, "!r:x", "@a:x", "http://b", true, 9, none⟩,
           Store.mk [⟨1, "!r:x", "@a:x", "http://a", false, 5, none⟩,
             ⟨2, "!r:x", "@a:x", "http://b", true, 9, none⟩] 3)) := by
  refine ⟨⟨by decide, ?_⟩, ⟨by decide, ?_⟩, ⟨by decide, ?_⟩⟩
  · have h := ((register_webhook_branches
      (Store.mk [⟨1, "!r:x", "@a:x", "http://a", false, 5, none⟩] 2)
      "!r:x" "@a:x" "http://a" (some [("k", "v")]) 9).1 1
      ⟨1, "!r:x", "@a:x", "http://a", false, 5, none⟩
      (by decide) (by decide) rfl rfl (by decide)).1
    rw [h]
    decide
  · have h := ((register_webhook_branches
      (Store.mk [⟨1, "!r:x", "@a:x", "http://a", false, 5, none⟩] 2)
      "!r:x" "@a:x" "http://a" (some [("k", "v")]) 9).2.1
      ⟨1, "!r:x", "@a:x", "http://a", false, 5, none⟩
      (by decide) rfl rfl rfl (by decide)).2.1
    exact h
  · have h := (register_webhook_branches
      (Store.mk [⟨1, "!r:x", "@a:x", "http://a", false, 5, none⟩] 2)
      "!r:x" "@a:x" "http://b" none 9).2.2 (by decide)
    rw [h]
    decide

end Webhook
